import Mathlib

/-!
Verification of the chatbot-telegram repository's bundled `chatgpt` client
(`src/unnamed/part_000`): the incremental Server-Sent-Events decoder
(`createParser2` / `parseEventStreamLine`), the response aggregator
(`onMessage` inside `browserPostEventStream` and `ChatGPTAPI.sendMessage`),
the benign-truncation catch logic, and the `pTimeout2` deadline race.

Conventions of the shallow embedding:
  * JS strings are embedded as `List Char`; indices are `Nat`, and signed
    quantities that the source keeps in JS numbers (`fieldLength`,
    `lineLength`, `startingFieldLength`, which go negative) are `Int`.
  * JS `undefined`-able variables are `Option _`; JS truthiness of a string
    is `Option.isSome` together with non-emptiness.
  * The two `while`/`for` loops of `feed` are embedded as fuel-indexed
    structural recursions; the fuel supplied (`buffer.length + 1`) strictly
    dominates the iteration count of the source loops (each iteration of the
    scan loop advances `index` by one, each iteration of the outer loop
    advances `position` by at least one), so the fuel never runs out on the
    calls made here and the embedding computes exactly what the source does.
-/

namespace ChatGPT

/-- A parsed server-sent event as produced by `createParser2`'s `onParse`
callback: either `{type: "event", id, event, data}` or
`{type: "reconnect-interval", value}`. -/
inductive ParseEvent where
  | event (id : Option (List Char)) (eventName : Option (List Char)) (data : List Char)
  | reconnectInterval (value : Int)
deriving DecidableEq

/-- The per-record accumulators of `createParser2`: the closure variables
`eventId`, `eventName`, `data`. -/
structure RecordState where
  eventId : Option (List Char)
  eventName : Option (List Char)
  data : List Char
deriving DecidableEq

/-- The full mutable state of one `createParser2` instance: the closure
variables `isFirstChunk`, `buffer`, `startingPosition`,
`startingFieldLength`, plus the per-record accumulators. -/
structure ParserState where
  isFirstChunk : Bool
  buffer : List Char
  startingPosition : Nat
  startingFieldLength : Int
  record : RecordState
deriving DecidableEq

/-- `reset()`: the initial parser state. -/
def resetState : ParserState :=
  ⟨true, [], 0, -1, ⟨none, none, []⟩⟩

/-- JS `buffer.slice(a, b)` for a string, with `a : Nat` and a possibly
negative extent `b - a` (JS returns the empty string when `b ≤ a`; `Int.toNat`
clamps exactly so). -/
def jsSlice (l : List Char) (a : Nat) (b : Int) : List Char :=
  (l.drop a).take (b - (a : Int)).toNat

/-- `hasBom(buffer)`: `BOM.every((charCode, index) => buffer.charCodeAt(index) === charCode)`
with `BOM = [239, 187, 191]`; `charCodeAt` out of range is `NaN`, which is
unequal to everything. -/
def hasBom : List Char → Bool
  | c0 :: c1 :: c2 :: _ => c0.toNat == 239 && c1.toNat == 187 && c2.toNat == 191
  | _ => false

/-- JS `eventName || undefined`: the empty string is falsy. -/
def jsOrUndefined : Option (List Char) → Option (List Char)
  | some s => if s = [] then none else some s
  | none => none

/-- JS whitespace accepted by `parseInt` before the number (the common
ASCII subset; the stream payloads relevant here are ASCII). -/
def isJsSpace (c : Char) : Bool :=
  c == ' ' || c == '\t' || c == '\n' || c == '\r' || c == '\x0b' || c == '\x0c'

/-- Decimal value of a digit string. -/
def digitsToNat (l : List Char) : Nat :=
  l.foldl (fun acc c => acc * 10 + (c.toNat - 48)) 0

/-- JS `parseInt(value, 10)`: skip leading whitespace, optional sign, then
the longest prefix of decimal digits; `none` models `NaN` (no digits). -/
def jsParseInt10 (s : List Char) : Option Int :=
  let t := s.dropWhile isJsSpace
  match t with
  | '-' :: rest =>
    let ds := rest.takeWhile Char.isDigit
    if ds = [] then none else some (-(digitsToNat ds : Int))
  | '+' :: rest =>
    let ds := rest.takeWhile Char.isDigit
    if ds = [] then none else some ((digitsToNat ds : Int))
  | _ =>
    let ds := t.takeWhile Char.isDigit
    if ds = [] then none else some ((digitsToNat ds : Int))

/-- `parseEventStreamLine(lineBuffer, index, fieldLength, lineLength)` from
`createParser2`, acting on the record accumulators and returning the events
it dispatches through `onParse`.  `lineLength = 0` is the blank-line record
terminator: if `data` is non-empty it dispatches an event carrying `data`
with its last character (`data.slice(0, -1)`) removed and clears `data` and
`eventId`; in every case it clears `eventName`.  A non-blank line is split
into field and value (`fieldLength < 0` meaning no colon was found, whole
line = field, empty value) and handled per field name. -/
def parseEventStreamLine (lineBuffer : List Char) (index : Nat) (fieldLength : Int)
    (lineLength : Nat) (rec : RecordState) : RecordState × List ParseEvent :=
  if lineLength = 0 then
    if 0 < rec.data.length then
      (⟨none, none, []⟩,
        [ParseEvent.event rec.eventId (jsOrUndefined rec.eventName) rec.data.dropLast])
    else
      ({ rec with eventName := none }, [])
  else
    let noValue := fieldLength < 0
    let field := jsSlice lineBuffer index
      ((index : Int) + (if noValue then (lineLength : Int) else fieldLength))
    let step : Int :=
      if noValue then (lineLength : Int)
      else if lineBuffer.get? (index + fieldLength.toNat + 1) = some ' ' then fieldLength + 2
      else fieldLength + 1
    let position := index + step.toNat
    let valueLength : Int := (lineLength : Int) - step
    let value := jsSlice lineBuffer position ((position : Int) + valueLength)
    if field = ['d', 'a', 't', 'a'] then
      ({ rec with data := rec.data ++ (if value ≠ [] then value ++ ['\n'] else ['\n']) }, [])
    else if field = ['e', 'v', 'e', 'n', 't'] then
      ({ rec with eventName := some value }, [])
    else if field = ['i', 'd'] ∧ ¬ value.contains '\x00' then
      ({ rec with eventId := some value }, [])
    else if field = ['r', 'e', 't', 'r', 'y'] then
      match jsParseInt10 value with
      | some retry => (rec, [ParseEvent.reconnectInterval retry])
      | none => (rec, [])
    else (rec, [])

/-- The inner `for` loop of `feed`: starting at absolute `index`, find the
next line terminator.  Returns the final `(fieldLength, lineLength,
discardTrailingNewline)`.  Note the source starts this loop at
`startingPosition` even after the first line of a chunk, so `index` can be
smaller than `position` and the computed differences can be negative — that
is faithful to the source (and is the root of the `\r` bug verified below). -/
def scanLine (buffer : List Char) (position : Int) :
    Nat → Nat → Int → Int → Bool → Int × Int × Bool
  | 0, _, fieldLength, lineLength, discard => (fieldLength, lineLength, discard)
  | fuel + 1, index, fieldLength, lineLength, discard =>
    if lineLength < 0 ∧ index < buffer.length then
      match buffer.get? index with
      | some c =>
        if c = ':' ∧ fieldLength < 0 then
          scanLine buffer position fuel (index + 1) ((index : Int) - position) lineLength discard
        else if c = '\r' then
          scanLine buffer position fuel (index + 1) fieldLength ((index : Int) - position) true
        else if c = '\n' then
          scanLine buffer position fuel (index + 1) fieldLength ((index : Int) - position) discard
        else
          scanLine buffer position fuel (index + 1) fieldLength lineLength discard
      | none => (fieldLength, lineLength, discard)
    else (fieldLength, lineLength, discard)

/-- Result of the outer `while` loop of `feed`. -/
structure FeedLoopResult where
  position : Nat
  startingPosition : Nat
  startingFieldLength : Int
  record : RecordState
  events : List ParseEvent
deriving DecidableEq

/-- The outer `while (position < length)` loop of `feed`: optionally skip a
`\n` left over from a `\r` terminator, scan for the next line terminator,
either break (remembering `startingPosition`/`startingFieldLength` for the
next chunk) or parse the line and advance. -/
def feedLoop (buffer : List Char) :
    Nat → Nat → Bool → Nat → Int → RecordState → List ParseEvent → FeedLoopResult
  | 0, position, _, sp, sfl, rec, acc => ⟨position, sp, sfl, rec, acc⟩
  | fuel + 1, position, discard, sp, sfl, rec, acc =>
    if position < buffer.length then
      let position1 := if discard ∧ buffer.get? position = some '\n' then position + 1 else position
      let scanned := scanLine buffer (position1 : Int) (buffer.length + 1) sp sfl (-1) false
      let fieldLength := scanned.1
      let lineLength := scanned.2.1
      let discard2 := scanned.2.2
      if lineLength < 0 then
        ⟨position1, buffer.length - position1, fieldLength, rec, acc⟩
      else
        let parsed := parseEventStreamLine buffer position1 fieldLength lineLength.toNat rec
        feedLoop buffer fuel (position1 + lineLength.toNat + 1) discard2 0 (-1)
          parsed.1 (acc ++ parsed.2)
    else ⟨position, sp, sfl, rec, acc⟩

/-- `feed(chunk)`: append the chunk to the rolling buffer, strip a UTF-8
byte-order mark on the very first chunk, run the line loop, and keep the
unconsumed tail of the buffer.  Returns the new parser state and the events
dispatched during this call, in order. -/
def feed (st : ParserState) (chunk : List Char) : ParserState × List ParseEvent :=
  let buffer0 := st.buffer ++ chunk
  let buffer := if st.isFirstChunk ∧ hasBom buffer0 then buffer0.drop 3 else buffer0
  let r := feedLoop buffer (buffer.length + 1) 0 false
    st.startingPosition st.startingFieldLength st.record []
  let buffer2 :=
    if r.position = buffer.length then []
    else if 0 < r.position then buffer.drop r.position
    else buffer
  (⟨false, buffer2, r.startingPosition, r.startingFieldLength, r.record⟩, r.events)

/-- Feed a list of chunks in order to one parser, collecting all dispatched
events. -/
def feedMany : ParserState → List (List Char) → ParserState × List ParseEvent
  | st, [] => (st, [])
  | st, c :: rest =>
    let fed := feed st c
    let more := feedMany fed.1 rest
    (more.1, fed.2 ++ more.2)

/-- All events dispatched by a freshly reset parser fed the given chunks. -/
def parseEvents (chunks : List (List Char)) : List ParseEvent :=
  (feedMany resetState chunks).2

/-! ## Response aggregator (`onMessage` in `browserPostEventStream`)

The aggregator consumes the `data` strings of decoded events.  `JSON.parse`
is a host builtin, not code of this repository, so a decoded payload is
embedded post-parse: each incoming `data` is either the literal `"[DONE]"`
sentinel, a successfully parsed conversation event, or a parse failure
(carrying the error's `toString()` text, which the promise is rejected
with). -/

/-- JS truthiness of a possibly-undefined string: `undefined` and `""` are
falsy. -/
def truthy : Option (List Char) → Bool
  | some s => ¬ s.isEmpty
  | none => false

/-- The `message.content` object: `{ parts?: [string] }`. -/
structure ConvoContent where
  parts : Option (List (List Char))
deriving DecidableEq

/-- The `message` object: `{ id?: string, content?: { parts?: [string] } }`. -/
structure ConvoMessage where
  id : Option (List Char)
  content : Option ConvoContent
deriving DecidableEq

/-- A parsed conversation response event:
`{ conversation_id?: string, message?: ... }`. -/
structure ConvoEvent where
  conversation_id : Option (List Char)
  message : Option ConvoMessage
deriving DecidableEq

/-- `convoResponseEvent.message?.content?.parts?.[0]` (optional chaining). -/
def parts0Of (e : ConvoEvent) : Option (List Char) :=
  ((e.message.bind fun m => m.content).bind fun c => c.parts).bind fun p => p.head?

/-- `convoResponseEvent.message?.id` (optional chaining). -/
def messageIdOf (e : ConvoEvent) : Option (List Char) :=
  e.message.bind fun m => m.id

/-- One decoded `data` payload as seen by `onMessage`. -/
inductive AggInput where
  | done
  | payload (e : ConvoEvent)
  | malformed (errMsg : List Char)
deriving DecidableEq

/-- The closure variables `response`, `conversationId`, `messageId` of
`browserPostEventStream` (equivalently the `result` object of
`sendMessage`). -/
structure AggState where
  response : List Char
  conversationId : Option (List Char)
  messageId : Option (List Char)
deriving DecidableEq

/-- How the single outstanding promise was settled. -/
inductive Settle where
  | resolved (response : List Char)
      (conversationId : Option (List Char)) (messageId : Option (List Char))
  | rejected (errMsg : List Char)
deriving DecidableEq

/-- The non-sentinel branch of `onMessage` on a successfully parsed payload:
update `conversationId` and `messageId` when truthy, and replace `response`
with `message?.content?.parts?.[0]` when truthy. -/
def applyPayload (st : AggState) (e : ConvoEvent) : AggState :=
  let st1 := if truthy e.conversation_id then
    { st with conversationId := e.conversation_id } else st
  let mid := messageIdOf e
  let st2 := if truthy mid then { st1 with messageId := mid } else st1
  match parts0Of e with
  | some p => if ¬ p.isEmpty then { st2 with response := p } else st2
  | none => st2

/-- Run `onMessage` over a list of decoded payloads.  A JS promise settles
at most once: the first `resolve`/`reject` wins and later calls are no-ops,
while the closure variables keep being mutated by later `onMessage` calls
(the parser keeps draining the stream). -/
def runOnMessages : AggState → Option Settle → List AggInput → AggState × Option Settle
  | st, settle, [] => (st, settle)
  | st, settle, AggInput.done :: rest =>
    runOnMessages st
      (some (settle.getD (Settle.resolved st.response st.conversationId st.messageId))) rest
  | st, settle, AggInput.payload e :: rest =>
    runOnMessages (applyPayload st e) settle rest
  | st, settle, AggInput.malformed msg :: rest =>
    runOnMessages st (some (settle.getD (Settle.rejected msg))) rest

/-! ## The catch handlers and the benign-truncation signature -/

/-- `err.toString().toLowerCase()` membership in the benign-truncation
signature set (`browserPostEventStream` line 229 and `sendMessage` line
609). -/
def isBenignTruncation (errMsg : List Char) : Bool :=
  let lower := errMsg.map Char.toLower
  lower == "error: typeerror: terminated".data || lower == "typeerror: terminated".data

/-- The value returned by `browserPostEventStream`: either the success
record `{response, conversationId, messageId}` or the error record
`{error: {message, statusCode, statusText}, conversationId, messageId}`. -/
inductive BrowserResult where
  | success (response : List Char)
      (conversationId : Option (List Char)) (messageId : Option (List Char))
  | failure (message : List Char) (statusCode : Option Int)
      (statusText : Option (List Char))
      (conversationId : Option (List Char)) (messageId : Option (List Char))
deriving DecidableEq

/-- The `catch` block of `browserPostEventStream` (lines 227-245): if
`response` is truthy and the lower-cased error text matches the benign
truncation signature, return the success record from the current closure
state; otherwise return the error record. -/
def catchHandler (st : AggState) (errMsg : List Char)
    (statusCode : Option Int) (statusText : Option (List Char)) : BrowserResult :=
  if ¬ st.response.isEmpty ∧ isBenignTruncation errMsg then
    BrowserResult.success st.response st.conversationId st.messageId
  else
    BrowserResult.failure errMsg statusCode statusText st.conversationId st.messageId

/-- How the `sendMessage` promise is settled by the `fetchSSE(...).catch`
handler. -/
inductive SendOutcome where
  | resolvedWith (result : AggState)
  | rejectedWith (errMsg : List Char)
deriving DecidableEq

/-- The `.catch` handler of `ChatGPTAPI.sendMessage` (lines 607-614):
resolve with the accumulated `result` when `result.response` is truthy and
the error matches the benign-truncation signature, otherwise reject with
the error. -/
def sendMessageCatch (result : AggState) (errMsg : List Char) : SendOutcome :=
  if ¬ result.response.isEmpty ∧ isBenignTruncation errMsg then
    SendOutcome.resolvedWith result
  else
    SendOutcome.rejectedWith errMsg

/-! ## `pTimeout2` and the deadline race -/

/-- The timeout message configured by `browserPostEventStream` (and
`sendMessage`) when `timeoutMs` is supplied. -/
def browserTimeoutMessage : List Char :=
  "ChatGPT timed out waiting for response".data

/-- `err.toString()` for the `TypeError` thrown by `pTimeout2` on a
non-positive `milliseconds` argument. -/
def invalidMsMessage (m : Int) : List Char :=
  "TypeError: Expected `milliseconds` to be a positive number, got `".data
    ++ (toString m).data ++ "`".data

/-- Outcome of one `pTimeout2` run. -/
inductive PTimeoutOutcome where
  | invalidMs
  | settledFirst
  | fallbackUsed
  | timedOut (errName : List Char) (errMsg : List Char) (cancelCalls : Nat)
deriving DecidableEq

/-- Shallow model of `pTimeout2(promise, options)` (lines 384-447).  Real
time is abstracted into `promiseSettlesFirst : Bool`: whether the wrapped
promise settles before the deadline elapses (a stream that never reaches a
terminal event never settles the promise, so the flag is `false` for it).
On a non-positive `milliseconds` the constructor's executor throws a
`TypeError`, rejecting the returned promise.  When the timer fires with no
`fallback`, it builds a `TimeoutError` carrying `options.message`, invokes
`promise.cancel()` exactly once when that property is a function, and
rejects.  (`milliseconds === Infinity`, which resolves to the bare promise,
is outside this `Int` model.) -/
def pTimeout2 (milliseconds : Int) (promiseSettlesFirst : Bool) (hasFallback : Bool)
    (message : Option (List Char)) (promiseHasCancel : Bool) : PTimeoutOutcome :=
  if milliseconds ≤ 0 then PTimeoutOutcome.invalidMs
  else if promiseSettlesFirst then PTimeoutOutcome.settledFirst
  else if hasFallback then PTimeoutOutcome.fallbackUsed
  else
    PTimeoutOutcome.timedOut "TimeoutError".data
      (message.getD ("Promise timed out after ".data ++ (toString milliseconds).data
        ++ " milliseconds".data))
      (if promiseHasCancel then 1 else 0)

/-! ## `browserPostEventStream` end to end

The environment (the host `fetch` and the response body stream) is
abstracted into a scenario: the fetch itself rejects, the response is
non-2xx, or a body stream is delivered whose decoded payloads are a list of
`AggInput`s.  `StreamEnd` records how the body stream ends after those
payloads; because the promise executor at lines 174-212 is an `async`
function passed to `new Promise`, a throw inside it (a mid-stream transport
error) only rejects the executor's own ignored promise — `responseP` stays
pending either way, which is why `StreamEnd` does not influence the result. -/

inductive StreamEnd where
  | completed
  | errored (errMsg : List Char)
deriving DecidableEq

/-- One run of the environment against `browserPostEventStream`. -/
inductive Scenario where
  | fetchThrows (errMsg : List Char)
  | httpNotOk (status : Int) (statusText : List Char)
  | streamRun (inputs : List AggInput) (ending : StreamEnd)
deriving DecidableEq

/-- `browserPostEventStream(url, accessToken, body, timeoutMs)` as a
function of the initial `conversationId`/`messageId` taken from the request
body, the optional `timeoutMs`, and the environment scenario.  `none` as a
result models the promise never settling, i.e. the call never returns.
Notes kept faithful to the source:
  * `if (timeoutMs)`: `0` is falsy, so `some 0` behaves like `none`;
  * a negative `timeoutMs` makes `pTimeout2`'s executor throw, so the
    awaited promise rejects with the `TypeError` before anything else;
  * a stream whose payloads never settle the promise leaves `responseP`
    pending: with a (positive) timeout the `TimeoutError` is caught and
    turned into an error record, without one the call hangs;
  * every caught error goes through the benign-truncation check of
    `catchHandler`; `err.statusCode`/`err.statusText` are undefined for
    all of these errors. -/
def browserPostEventStream (cid0 mid0 : Option (List Char)) (timeoutMs : Option Int)
    (sc : Scenario) : Option BrowserResult :=
  let st0 : AggState := ⟨[], cid0, mid0⟩
  match sc with
  | Scenario.fetchThrows errMsg => some (catchHandler st0 errMsg none none)
  | Scenario.httpNotOk status statusText =>
    some (BrowserResult.failure
      ("ChatGPTAPI error ".data ++ (if status ≠ 0 then (toString status).data else statusText))
      (some status) (some statusText) cid0 mid0)
  | Scenario.streamRun inputs _ =>
    let ra := runOnMessages st0 none inputs
    let st := ra.1
    match timeoutMs with
    | some m =>
      if m = 0 then
        match ra.2 with
        | some (Settle.resolved r c mi) => some (BrowserResult.success r c mi)
        | some (Settle.rejected msg) => some (catchHandler st msg none none)
        | none => none
      else if m < 0 then some (catchHandler st (invalidMsMessage m) none none)
      else
        match ra.2 with
        | some (Settle.resolved r c mi) => some (BrowserResult.success r c mi)
        | some (Settle.rejected msg) => some (catchHandler st msg none none)
        | none =>
          some (catchHandler st ("TimeoutError: ".data ++ browserTimeoutMessage) none none)
    | none =>
      match ra.2 with
      | some (Settle.resolved r c mi) => some (BrowserResult.success r c mi)
      | some (Settle.rejected msg) => some (catchHandler st msg none none)
      | none => none

/-- `conversationId` of a returned record (success or error). -/
def resultConversationId : BrowserResult → Option (List Char)
  | BrowserResult.success _ c _ => c
  | BrowserResult.failure _ _ _ c _ => c

/-- `messageId` of a returned record (success or error). -/
def resultMessageId : BrowserResult → Option (List Char)
  | BrowserResult.success _ _ m => m
  | BrowserResult.failure _ _ _ _ m => m

/-- The successfully parsed payloads delivered by a scenario. -/
def scenarioPayloads : Scenario → List ConvoEvent
  | Scenario.streamRun inputs _ =>
    inputs.filterMap fun i => match i with
      | AggInput.payload e => some e
      | _ => none
  | _ => []

/-! ## Helper lemmas (shared) -/

/-- A settled promise stays settled: once `runOnMessages` carries a settle
value, later inputs cannot change it. -/
theorem runOnMessages_settle_persist (inputs : List AggInput) :
    ∀ (st : AggState) (s : Settle), (runOnMessages st (some s) inputs).2 = some s := by
  induction inputs with
  | nil => intro st s; rfl
  | cons i rest ih =>
    intro st s
    cases i <;> simp only [runOnMessages, Option.getD] <;> apply ih

/-- A payload whose `conversation_id` is falsy leaves `conversationId`
unchanged. -/
theorem applyPayload_conversationId (st : AggState) (e : ConvoEvent)
    (h : truthy e.conversation_id = false) :
    (applyPayload st e).conversationId = st.conversationId := by
  unfold applyPayload
  simp only [h, Bool.false_eq_true, if_false]
  repeat' split
  all_goals rfl

/-- A payload whose `message?.id` is falsy leaves `messageId` unchanged. -/
theorem applyPayload_messageId (st : AggState) (e : ConvoEvent)
    (h : truthy (messageIdOf e) = false) :
    (applyPayload st e).messageId = st.messageId := by
  unfold applyPayload
  simp only [h, Bool.false_eq_true, if_false]
  repeat' split
  all_goals rfl

/-- A payload whose `message?.content?.parts?.[0]` replaces `response`. -/
theorem applyPayload_response (st : AggState) (e : ConvoEvent) (p : List Char)
    (h : parts0Of e = some p) (hp : p ≠ []) :
    (applyPayload st e).response = p := by
  unfold applyPayload
  rw [h]
  simp only [List.isEmpty_iff, hp, not_false_iff, if_true]

/-- If every payload in the input list has a falsy `conversation_id`, the
aggregator's `conversationId` never changes, and any resolution taken during
the run carries that unchanged `conversationId`. -/
theorem runOnMessages_conversationId_frame (inputs : List AggInput) :
    ∀ (st : AggState) (s0 : Option Settle),
      (∀ e, AggInput.payload e ∈ inputs → truthy e.conversation_id = false) →
      (∀ r c m, s0 = some (Settle.resolved r c m) → c = st.conversationId) →
      (runOnMessages st s0 inputs).1.conversationId = st.conversationId ∧
      (∀ r c m, (runOnMessages st s0 inputs).2 = some (Settle.resolved r c m) →
        c = st.conversationId) := by
  induction inputs with
  | nil => intro st s0 _ hs; exact ⟨rfl, hs⟩
  | cons i rest ih =>
    intro st s0 hp hs
    cases i with
    | done =>
      simp only [runOnMessages]
      refine ih st _ (fun e he => hp e (by simp [he])) ?_
      intro r c m hsome
      cases hs0 : s0 with
      | some s =>
        rw [hs0] at hsome
        simp only [Option.getD] at hsome
        exact hs r c m (hs0.symm ▸ hsome)
      | none =>
        rw [hs0] at hsome
        simp only [Option.getD] at hsome
        injection hsome with h1
        cases h1
        rfl
    | payload e =>
      have hc : truthy e.conversation_id = false := hp e (by simp)
      have heq := applyPayload_conversationId st e hc
      simp only [runOnMessages]
      have := ih (applyPayload st e) s0 (fun e' he' => hp e' (by simp [he']))
        (fun r c m hh => (hs r c m hh).trans heq.symm)
      exact ⟨this.1.trans heq, fun r c m hh => (this.2 r c m hh).trans heq⟩
    | malformed msg =>
      simp only [runOnMessages]
      refine ih st _ (fun e he => hp e (by simp [he])) ?_
      intro r c m hsome
      cases hs0 : s0 with
      | some s =>
        rw [hs0] at hsome
        simp only [Option.getD] at hsome
        exact hs r c m (hs0.symm ▸ hsome)
      | none =>
        rw [hs0] at hsome
        simp only [Option.getD] at hsome
        cases hsome

/-- If every payload in the input list has a falsy `message?.id`, the
aggregator's `messageId` never changes, and any resolution taken during the
run carries that unchanged `messageId`. -/
theorem runOnMessages_messageId_frame (inputs : List AggInput) :
    ∀ (st : AggState) (s0 : Option Settle),
      (∀ e, AggInput.payload e ∈ inputs → truthy (messageIdOf e) = false) →
      (∀ r c m, s0 = some (Settle.resolved r c m) → m = st.messageId) →
      (runOnMessages st s0 inputs).1.messageId = st.messageId ∧
      (∀ r c m, (runOnMessages st s0 inputs).2 = some (Settle.resolved r c m) →
        m = st.messageId) := by
  induction inputs with
  | nil => intro st s0 _ hs; exact ⟨rfl, hs⟩
  | cons i rest ih =>
    intro st s0 hp hs
    cases i with
    | done =>
      simp only [runOnMessages]
      refine ih st _ (fun e he => hp e (by simp [he])) ?_
      intro r c m hsome
      cases hs0 : s0 with
      | some s =>
        rw [hs0] at hsome
        simp only [Option.getD] at hsome
        exact hs r c m (hs0.symm ▸ hsome)
      | none =>
        rw [hs0] at hsome
        simp only [Option.getD] at hsome
        injection hsome with h1
        cases h1
        rfl
    | payload e =>
      have hc : truthy (messageIdOf e) = false := hp e (by simp)
      have heq := applyPayload_messageId st e hc
      simp only [runOnMessages]
      have := ih (applyPayload st e) s0 (fun e' he' => hp e' (by simp [he']))
        (fun r c m hh => (hs r c m hh).trans heq.symm)
      exact ⟨this.1.trans heq, fun r c m hh => (this.2 r c m hh).trans heq⟩
    | malformed msg =>
      simp only [runOnMessages]
      refine ih st _ (fun e he => hp e (by simp [he])) ?_
      intro r c m hsome
      cases hs0 : s0 with
      | some s =>
        rw [hs0] at hsome
        simp only [Option.getD] at hsome
        exact hs r c m (hs0.symm ▸ hsome)
      | none =>
        rw [hs0] at hsome
        simp only [Option.getD] at hsome
        cases hsome

/-- `catchHandler` always reports the closure's `conversationId`, on both
the success and the failure shape. -/
theorem catchHandler_conversationId (st : AggState) (msg : List Char)
    (sc : Option Int) (sx : Option (List Char)) :
    resultConversationId (catchHandler st msg sc sx) = st.conversationId := by
  unfold catchHandler
  split <;> rfl

/-- `catchHandler` always reports the closure's `messageId`, on both the
success and the failure shape. -/
theorem catchHandler_messageId (st : AggState) (msg : List Char)
    (sc : Option Int) (sx : Option (List Char)) :
    resultMessageId (catchHandler st msg sc sx) = st.messageId := by
  unfold catchHandler
  split <;> rfl

/-- The blank-line (`lineLength = 0`) branch of `parseEventStreamLine`,
exposed as an equation (the outer guard reduces definitionally). -/
theorem parseEventStreamLine_terminator (buf : List Char) (idx : Nat) (fl : Int)
    (rec : RecordState) :
    parseEventStreamLine buf idx fl 0 rec
      = if 0 < rec.data.length then
          (⟨none, none, []⟩,
            [ParseEvent.event rec.eventId (jsOrUndefined rec.eventName) rec.data.dropLast])
        else ({ rec with eventName := none }, []) := rfl

/-- Membership translation between raw inputs and `scenarioPayloads`. -/
theorem payload_mem_scenarioPayloads (inputs : List AggInput) (ek : StreamEnd)
    (e : ConvoEvent) (h : AggInput.payload e ∈ inputs) :
    e ∈ scenarioPayloads (Scenario.streamRun inputs ek) := by
  simp only [scenarioPayloads, List.mem_filterMap]
  exact ⟨AggInput.payload e, h, rfl⟩

/-! ## Claim theorems -/

/-- Claim C1 (code bug): feeding a well-formed SSE stream as one chunk is
NOT always equivalent to feeding it split at a chunk boundary.  On
`"data: x\r\ndata: y\n\n"` the single-chunk feed emits no event — after the
`\r`-terminated first line, the scan loop restarts at index 0, re-reads the
old `\r`, leaves `discardTrailingNewline` set, and thereby swallows the
blank-line record terminator — while the two-chunk feed split after the
CRLF emits the expected event with data `"x\ny"`. -/
theorem c1_chunk_split_divergence :
    parseEvents ["data: x\r\ndata: y\n\n".data] = [] ∧
    parseEvents ["data: x\r\n".data, "data: y\n\n".data]
      = [ParseEvent.event none none ['x', '\n', 'y']] := by
  constructor <;> decide

/-- Claim C5 (counterexample): the decoder CAN emit a `StreamEvent` with
empty `data`: a `data` field line with empty value appends a bare newline
to the accumulator, and the following blank line dispatches an event whose
newline-stripped data is the empty string. -/
theorem c5_counterexample :
    parseEvents ["data\n\n".data] = [ParseEvent.event none none []] := by
  decide

/-- Claim C5 (amended): the decoder dispatches an event only at a blank-line
record terminator and only when the accumulated `data` is non-empty, and the
dispatched data is the accumulator with exactly one trailing character (the
final newline) stripped; since an empty-valued `data` field contributes a
bare newline, that stripped data — and hence an emitted event's `data` —
can still be empty. -/
theorem c5_dispatch_characterization :
    ∀ (buf : List Char) (idx : Nat) (fl : Int) (rec : RecordState),
      ((parseEventStreamLine buf idx fl 0 rec).2 ≠ [] → 0 < rec.data.length) ∧
      (0 < rec.data.length →
        (parseEventStreamLine buf idx fl 0 rec).2
          = [ParseEvent.event rec.eventId (jsOrUndefined rec.eventName) rec.data.dropLast]) ∧
      (rec.data = [] → (parseEventStreamLine buf idx fl 0 rec).2 = []) ∧
      (∀ ll : Nat, ll ≠ 0 → ∀ i nm d,
        ParseEvent.event i nm d ∉ (parseEventStreamLine buf idx fl ll rec).2) := by
  intro buf idx fl rec
  refine ⟨?_, ?_, ?_, ?_⟩
  · intro hne
    by_contra hz
    apply hne
    rw [parseEventStreamLine_terminator, if_neg hz]
  · intro hpos
    rw [parseEventStreamLine_terminator, if_pos hpos]
  · intro hnil
    have hz : ¬ 0 < rec.data.length := by simp [hnil]
    rw [parseEventStreamLine_terminator, if_neg hz]
  · intro ll hll i nm d hmem
    simp only [parseEventStreamLine, if_neg hll] at hmem
    repeat' split at hmem
    all_goals simp_all

/-- Claim C5 witness: instantiating the amended characterization on a
record whose accumulator is `"x\n"` yields the dispatched event `"x"`. -/
theorem c5_witness :
    (parseEventStreamLine [] 0 (-1) 0 ⟨none, none, ['x', '\n']⟩).2
      = [ParseEvent.event none none ['x']] :=
  (c5_dispatch_characterization [] 0 (-1) ⟨none, none, ['x', '\n']⟩).2.1 (by decide)

/-- Claim C6: a decoded event whose data is not the sentinel and fails to
parse as JSON rejects the request with the parse error, and no later event
of the same request can change that settled outcome. -/
theorem c6_reject_no_recovery :
    ∀ (st : AggState) (msg : List Char) (rest : List AggInput),
      (runOnMessages st none (AggInput.malformed msg :: rest)).2
        = some (Settle.rejected msg) := by
  intro st msg rest
  simp only [runOnMessages, Option.getD]
  exact runOnMessages_settle_persist rest st (Settle.rejected msg)

/-- Claim C10: on a blank line the decoder always clears the pending event
name — even when nothing is dispatched because the accumulated data is
empty — while the pending event id survives exactly when no dispatch
happens; concretely, an `event: foo` line followed directly by a blank line
does not attach `foo` to the next record. -/
theorem c10_terminator_clears_eventName :
    (∀ (buf : List Char) (idx : Nat) (fl : Int) (rec : RecordState),
      ((parseEventStreamLine buf idx fl 0 rec).1.eventName = none) ∧
      (rec.data = [] →
        parseEventStreamLine buf idx fl 0 rec = ({ rec with eventName := none }, [])) ∧
      (rec.data ≠ [] → (parseEventStreamLine buf idx fl 0 rec).1.eventId = none)) ∧
    parseEvents ["event: foo\n\ndata: x\n\n".data] = [ParseEvent.event none none ['x']] := by
  constructor
  · intro buf idx fl rec
    refine ⟨?_, ?_, ?_⟩
    · rw [parseEventStreamLine_terminator]
      split <;> rfl
    · intro hnil
      have hz : ¬ 0 < rec.data.length := by simp [hnil]
      rw [parseEventStreamLine_terminator, if_neg hz]
    · intro hne
      have hp : 0 < rec.data.length := by
        cases hd : rec.data with
        | nil => exact absurd hd hne
        | cons a l => simp [hd]
      rw [parseEventStreamLine_terminator, if_pos hp]
  · decide

/-- Claim C10 witness: a record with pending name and id but empty data, hit
by a blank line, keeps its id, loses its name, and dispatches nothing. -/
theorem c10_witness :
    parseEventStreamLine [] 0 (-1) 0 ⟨some ['1'], some ['n'], []⟩
      = (⟨some ['1'], none, []⟩, []) :=
  (c10_terminator_clears_eventName.1 [] 0 (-1) ⟨some ['1'], some ['n'], []⟩).2.1 rfl

/-- Claim C3: a transport-level error whose `toString()` lower-cases to the
benign-truncation signature resolves the request with the last recorded
non-empty partial response — in the browser variant by returning the
success record from the catch block, in `sendMessage` by resolving with the
accumulated result — while with no recorded partial response the same error
surfaces as a failure. -/
theorem c3_benign_truncation :
    (∀ (st : AggState) (msg : List Char) (sc : Option Int) (sx : Option (List Char)),
      st.response ≠ [] → isBenignTruncation msg = true →
      catchHandler st msg sc sx
        = BrowserResult.success st.response st.conversationId st.messageId) ∧
    (∀ (st : AggState) (msg : List Char) (sc : Option Int) (sx : Option (List Char)),
      st.response = [] →
      catchHandler st msg sc sx
        = BrowserResult.failure msg sc sx st.conversationId st.messageId) ∧
    (∀ (res : AggState) (msg : List Char),
      res.response ≠ [] → isBenignTruncation msg = true →
      sendMessageCatch res msg = SendOutcome.resolvedWith res) ∧
    (∀ (res : AggState) (msg : List Char),
      res.response = [] → sendMessageCatch res msg = SendOutcome.rejectedWith msg) := by
  refine ⟨?_, ?_, ?_, ?_⟩
  · intro st msg sc sx h hb
    simp [catchHandler, List.isEmpty_iff, h, hb]
  · intro st msg sc sx h
    simp [catchHandler, List.isEmpty_iff, h]
  · intro res msg h hb
    simp [sendMessageCatch, List.isEmpty_iff, h, hb]
  · intro res msg h
    simp [sendMessageCatch, List.isEmpty_iff, h]

/-- Claim C2: when the decoded payloads carry
`message.content.parts[0] = "a"` then `"ab"` and then the `[DONE]` sentinel
arrives, the request resolves with final response text `"ab"` — each
non-empty `parts[0]` replaces the accumulated text (last write wins, no
concatenation, whatever text the state held before), and `[DONE]` resolves
with the last accumulated response. -/
theorem c2_last_write_wins :
    ∀ (e1 e2 : ConvoEvent) (st0 : AggState),
      parts0Of e1 = some ['a'] →
      parts0Of e2 = some ['a', 'b'] →
      (runOnMessages st0 none [AggInput.payload e1, AggInput.payload e2, AggInput.done]).1.response
        = ['a', 'b'] ∧
      (runOnMessages st0 none [AggInput.payload e1, AggInput.payload e2, AggInput.done]).2
        = some (Settle.resolved ['a', 'b']
            (runOnMessages st0 none
              [AggInput.payload e1, AggInput.payload e2, AggInput.done]).1.conversationId
            (runOnMessages st0 none
              [AggInput.payload e1, AggInput.payload e2, AggInput.done]).1.messageId) := by
  intro e1 e2 st0 h1 h2
  have hr : (applyPayload (applyPayload st0 e1) e2).response = ['a', 'b'] :=
    applyPayload_response _ e2 _ h2 (by decide)
  simp only [runOnMessages, Option.getD]
  exact ⟨hr, by rw [hr]⟩

/-- Claim C2 witness: concrete payloads carrying parts `["a"]` then
`["ab"]` then the sentinel resolve with `"ab"`. -/
theorem c2_witness :
    (runOnMessages ⟨[], none, none⟩ none
        [AggInput.payload ⟨none, some ⟨none, some ⟨some [['a']]⟩⟩⟩,
         AggInput.payload ⟨none, some ⟨none, some ⟨some [['a', 'b']]⟩⟩⟩, AggInput.done]).2
      = some (Settle.resolved ['a', 'b'] none none) :=
  (c2_last_write_wins ⟨none, some ⟨none, some ⟨some [['a']]⟩⟩⟩
    ⟨none, some ⟨none, some ⟨some [['a', 'b']]⟩⟩⟩ ⟨[], none, none⟩
    (by decide) (by decide)).2

/-- Claim C3 witness: with recorded text `"ab"`, the error
`"TypeError: terminated"` resolves successfully in both variants; with no
recorded text it is surfaced as a failure. -/
theorem c3_witness :
    catchHandler ⟨['a', 'b'], none, none⟩ "TypeError: terminated".data none none
      = BrowserResult.success ['a', 'b'] none none ∧
    catchHandler ⟨[], some ['c'], none⟩ "TypeError: terminated".data none none
      = BrowserResult.failure "TypeError: terminated".data none none (some ['c']) none ∧
    sendMessageCatch ⟨['a'], none, none⟩ "Error: TypeError: terminated".data
      = SendOutcome.resolvedWith ⟨['a'], none, none⟩ ∧
    sendMessageCatch ⟨[], none, none⟩ "boom".data
      = SendOutcome.rejectedWith "boom".data :=
  ⟨c3_benign_truncation.1 ⟨['a', 'b'], none, none⟩ _ none none (by decide) (by decide),
   c3_benign_truncation.2.1 ⟨[], some ['c'], none⟩ _ none none rfl,
   c3_benign_truncation.2.2.1 ⟨['a'], none, none⟩ _ (by decide) (by decide),
   c3_benign_truncation.2.2.2 ⟨[], none, none⟩ _ rfl⟩

/-- Claim C4: with a positive deadline against a stream that never reaches
a terminal event, `pTimeout2`'s timer builds the `TimeoutError` with message
`"ChatGPT timed out waiting for response"` and invokes the promise's cancel
hook (`abortController.abort`) exactly once, and `browserPostEventStream`
surfaces the timeout-classified failure record. -/
theorem c4_timeout_classification :
    ∀ (m : Int), 0 < m →
      pTimeout2 m false false (some browserTimeoutMessage) true
        = PTimeoutOutcome.timedOut "TimeoutError".data browserTimeoutMessage 1 ∧
      ∀ (cid mid : Option (List Char)) (inputs : List AggInput) (ek : StreamEnd),
        (runOnMessages ⟨[], cid, mid⟩ none inputs).2 = none →
        browserPostEventStream cid mid (some m) (Scenario.streamRun inputs ek)
          = some (BrowserResult.failure ("TimeoutError: ".data ++ browserTimeoutMessage)
              none none
              (runOnMessages ⟨[], cid, mid⟩ none inputs).1.conversationId
              (runOnMessages ⟨[], cid, mid⟩ none inputs).1.messageId) := by
  intro m hm
  have hm0 : ¬ m = 0 := by omega
  have hmneg : ¬ m < 0 := by omega
  have hmle : ¬ m ≤ 0 := by omega
  constructor
  · simp [pTimeout2, hmle]
  · intro cid mid inputs ek h
    have hben : isBenignTruncation ("TimeoutError: ".data ++ browserTimeoutMessage) = false := by
      decide
    simp [browserPostEventStream, hm0, hmneg, h, catchHandler]
    exact fun _ => hben

/-- Claim C4 witness: a 50 ms deadline against a stream delivering nothing
times out with the configured message and one cancel invocation. -/
theorem c4_witness :
    pTimeout2 50 false false (some browserTimeoutMessage) true
      = PTimeoutOutcome.timedOut "TimeoutError".data browserTimeoutMessage 1 ∧
    browserPostEventStream none none (some 50) (Scenario.streamRun [] StreamEnd.completed)
      = some (BrowserResult.failure ("TimeoutError: ".data ++ browserTimeoutMessage)
          none none none none) :=
  ⟨(c4_timeout_classification 50 (by decide)).1,
   (c4_timeout_classification 50 (by decide)).2 none none [] StreamEnd.completed rfl⟩

/-- Claim C7: a `retry` field line whose value parses as a base-10 integer
dispatches a `reconnect-interval` event carrying that integer at the moment
the line itself is parsed — no blank-line record terminator is needed — and
in particular feeding just `"retry: 500\n"` yields the event with value
`500`. -/
theorem c7_retry_immediate :
    (∀ (rec : RecordState) (v : List Char) (n : Int),
      jsParseInt10 v = some n →
      parseEventStreamLine ('r' :: 'e' :: 't' :: 'r' :: 'y' :: ':' :: ' ' :: v) 0 5
        (7 + v.length) rec = (rec, [ParseEvent.reconnectInterval n])) ∧
    parseEvents ["retry: 500\n".data] = [ParseEvent.reconnectInterval 500] := by
  constructor
  · intro rec v n h
    have hne : ¬ (7 + v.length = 0) := by omega
    have hsp : ('r' :: 'e' :: 't' :: 'r' :: 'y' :: ':' :: ' ' :: v).get? (0 + (5:Int).toNat + 1)
        = some ' ' := rfl
    simp only [parseEventStreamLine, if_neg hne, hsp, jsSlice]
    norm_num
    rw [show List.take (Int.toNat 5) ('r' :: 'e' :: 't' :: 'r' :: 'y' :: ':' :: ' ' :: v)
          = ['r', 'e', 't', 'r', 'y'] from rfl,
        show List.drop (Int.toNat 7) ('r' :: 'e' :: 't' :: 'r' :: 'y' :: ':' :: ' ' :: v)
          = v from rfl, List.take_length,
        if_neg (by decide : ¬ (['r', 'e', 't', 'r', 'y'] = ['d', 'a', 't', 'a'])),
        if_neg (by decide : ¬ (['r', 'e', 't', 'r', 'y'] = ['e', 'v', 'e', 'n', 't'])),
        if_neg (show ¬ (['r', 'e', 't', 'r', 'y'] = ['i', 'd'] ∧ '\x00' ∉ v) from
          fun hc => absurd hc.1 (by decide)),
        if_pos (rfl : ['r', 'e', 't', 'r', 'y'] = ['r', 'e', 't', 'r', 'y']), h]
  · decide

/-- Claim C7 witness: the `retry: 500` line dispatches
`reconnect-interval 500` directly from the line parser. -/
theorem c7_witness :
    parseEventStreamLine ('r' :: 'e' :: 't' :: 'r' :: 'y' :: ':' :: ' ' :: ['5', '0', '0']) 0 5
      (7 + ['5', '0', '0'].length) ⟨none, none, []⟩
      = (⟨none, none, []⟩, [ParseEvent.reconnectInterval 500]) :=
  c7_retry_immediate.1 ⟨none, none, []⟩ ['5', '0', '0'] 500 (by decide)

/-- Claim C8 (counterexample): `browserPostEventStream` is NOT total at its
interface — with no timeout configured, a stream that ends without the
`[DONE]` sentinel (here: an empty body stream that completes) leaves the
response promise pending forever, so the call never returns either record
shape. -/
theorem c8_counterexample :
    browserPostEventStream none none none (Scenario.streamRun [] StreamEnd.completed)
      = none := rfl

/-- Claim C8 (amended): `browserPostEventStream` never throws — every
completed run returns a success or an error record, with non-2xx status,
JSON parse failure, timeout, and pre-stream fetch errors all converted into
those shapes — but it fails to return precisely when no effective timeout
is configured (`timeoutMs` absent or the falsy `0`) and the delivered
stream settles nothing (no sentinel and no parse failure), in which case
the promise stays pending forever (a mid-stream transport error also lands
here, because the `async` promise executor swallows its own throw). -/
theorem c8_total_characterization :
    ∀ (cid0 mid0 : Option (List Char)) (tms : Option Int) (sc : Scenario),
      browserPostEventStream cid0 mid0 tms sc = none ↔
        ((tms = none ∨ tms = some 0) ∧
          ∃ inputs ek, sc = Scenario.streamRun inputs ek ∧
            (runOnMessages ⟨[], cid0, mid0⟩ none inputs).2 = none) := by
  intro cid0 mid0 tms sc
  cases sc with
  | fetchThrows errMsg => simp [browserPostEventStream]
  | httpNotOk status statusText => simp [browserPostEventStream]
  | streamRun inputs ek =>
    rcases hra : runOnMessages ⟨[], cid0, mid0⟩ none inputs with ⟨st, settle⟩
    have h2 : (runOnMessages ⟨[], cid0, mid0⟩ none inputs).2 = settle := by rw [hra]
    cases settle with
    | none =>
      cases tms with
      | none => simp [browserPostEventStream, hra, h2]
      | some m =>
        by_cases hm0 : m = 0
        · subst hm0; simp [browserPostEventStream, hra, h2]
        · by_cases hmneg : m < 0
          · simp [browserPostEventStream, hra, h2, hm0, hmneg]
          · simp [browserPostEventStream, hra, h2, hm0, hmneg]
    | some s =>
      cases s with
      | resolved r c mi =>
        cases tms with
        | none => simp [browserPostEventStream, hra, h2]
        | some m =>
          by_cases hm0 : m = 0
          · subst hm0; simp [browserPostEventStream, hra, h2]
          · by_cases hmneg : m < 0
            · simp [browserPostEventStream, hra, h2, hm0, hmneg]
            · simp [browserPostEventStream, hra, h2, hm0, hmneg]
      | rejected msg =>
        cases tms with
        | none => simp [browserPostEventStream, hra, h2]
        | some m =>
          by_cases hm0 : m = 0
          · subst hm0; simp [browserPostEventStream, hra, h2]
          · by_cases hmneg : m < 0
            · simp [browserPostEventStream, hra, h2, hm0, hmneg]
            · simp [browserPostEventStream, hra, h2, hm0, hmneg]

/-- Every value returned from a `streamRun` scenario is either the success
record of a resolution taken during the run, or the catch handler applied
to the final closure state (shared case analysis for the frame claim). -/
theorem browserPost_streamRun_cases
    (cid0 mid0 : Option (List Char)) (tms : Option Int) (inputs : List AggInput)
    (ek : StreamEnd) (r : BrowserResult)
    (hr : browserPostEventStream cid0 mid0 tms (Scenario.streamRun inputs ek) = some r) :
    (∃ rr c mi, (runOnMessages ⟨[], cid0, mid0⟩ none inputs).2 = some (Settle.resolved rr c mi)
      ∧ r = BrowserResult.success rr c mi) ∨
    (∃ msg, r = catchHandler (runOnMessages ⟨[], cid0, mid0⟩ none inputs).1 msg none none) := by
  rcases hra : runOnMessages ⟨[], cid0, mid0⟩ none inputs with ⟨st, settle⟩
  simp only [browserPostEventStream, hra] at hr
  cases settle with
  | none =>
    cases tms with
    | none => simp at hr
    | some m =>
      by_cases hm0 : m = 0
      · simp [hm0] at hr
      · by_cases hmneg : m < 0
        · simp [hm0, hmneg] at hr
          exact Or.inr ⟨invalidMsMessage m, hr.symm⟩
        · simp [hm0, hmneg] at hr
          exact Or.inr ⟨"TimeoutError: ".data ++ browserTimeoutMessage, hr.symm⟩
  | some s =>
    cases s with
    | resolved rr c mi =>
      cases tms with
      | none =>
        simp at hr
        exact Or.inl ⟨rr, c, mi, rfl, hr.symm⟩
      | some m =>
        by_cases hm0 : m = 0
        · simp [hm0] at hr
          exact Or.inl ⟨rr, c, mi, rfl, hr.symm⟩
        · by_cases hmneg : m < 0
          · simp [hm0, hmneg] at hr
            exact Or.inr ⟨invalidMsMessage m, hr.symm⟩
          · simp [hm0, hmneg] at hr
            exact Or.inl ⟨rr, c, mi, rfl, hr.symm⟩
    | rejected msg =>
      cases tms with
      | none =>
        simp at hr
        exact Or.inr ⟨msg, hr.symm⟩
      | some m =>
        by_cases hm0 : m = 0
        · simp [hm0] at hr
          exact Or.inr ⟨msg, hr.symm⟩
        · by_cases hmneg : m < 0
          · simp [hm0, hmneg] at hr
            exact Or.inr ⟨invalidMsMessage m, hr.symm⟩
          · simp [hm0, hmneg] at hr
            exact Or.inr ⟨msg, hr.symm⟩

/-- Claim C9: when no decoded payload carries a truthy `conversation_id`
(respectively `message.id`), the `conversationId` (respectively `messageId`)
of whatever record `browserPostEventStream` returns — success or error —
is exactly the value taken from the request body. -/
theorem c9_frame :
    ∀ (cid0 mid0 : Option (List Char)) (tms : Option Int) (sc : Scenario) (r : BrowserResult),
      browserPostEventStream cid0 mid0 tms sc = some r →
      ((∀ e, e ∈ scenarioPayloads sc → truthy e.conversation_id = false) →
        resultConversationId r = cid0) ∧
      ((∀ e, e ∈ scenarioPayloads sc → truthy (messageIdOf e) = false) →
        resultMessageId r = mid0) := by
  intro cid0 mid0 tms sc r hr
  cases sc with
  | fetchThrows errMsg =>
    simp only [browserPostEventStream, Option.some.injEq] at hr
    constructor
    · intro _
      rw [← hr, catchHandler_conversationId]
    · intro _
      rw [← hr, catchHandler_messageId]
  | httpNotOk status statusText =>
    simp only [browserPostEventStream, Option.some.injEq] at hr
    exact ⟨fun _ => hr ▸ rfl, fun _ => hr ▸ rfl⟩
  | streamRun inputs ek =>
    rcases browserPost_streamRun_cases cid0 mid0 tms inputs ek r hr with
      ⟨rr, c, mi, hsettle, hrr⟩ | ⟨msg, hrr⟩
    · constructor
      · intro hno
        have hframe := runOnMessages_conversationId_frame inputs ⟨[], cid0, mid0⟩ none
          (fun e he => hno e (payload_mem_scenarioPayloads inputs ek e he))
          (fun _ _ _ hx => by cases hx)
        have := hframe.2 rr c mi hsettle
        rw [hrr]
        exact this
      · intro hno
        have hframe := runOnMessages_messageId_frame inputs ⟨[], cid0, mid0⟩ none
          (fun e he => hno e (payload_mem_scenarioPayloads inputs ek e he))
          (fun _ _ _ hx => by cases hx)
        have := hframe.2 rr c mi hsettle
        rw [hrr]
        exact this
    · constructor
      · intro hno
        have hframe := runOnMessages_conversationId_frame inputs ⟨[], cid0, mid0⟩ none
          (fun e he => hno e (payload_mem_scenarioPayloads inputs ek e he))
          (fun _ _ _ hx => by cases hx)
        rw [hrr, catchHandler_conversationId]
        exact hframe.1
      · intro hno
        have hframe := runOnMessages_messageId_frame inputs ⟨[], cid0, mid0⟩ none
          (fun e he => hno e (payload_mem_scenarioPayloads inputs ek e he))
          (fun _ _ _ hx => by cases hx)
        rw [hrr, catchHandler_messageId]
        exact hframe.1

/-- Claim C9 witness: a run whose only payload carries text but neither id
returns the body's `conversationId` and `messageId` unchanged. -/
theorem c9_witness :
    resultConversationId (BrowserResult.success ['x'] (some ['c']) (some ['m'])) = some ['c'] ∧
    resultMessageId (BrowserResult.success ['x'] (some ['c']) (some ['m'])) = some ['m'] :=
  ⟨(c9_frame (some ['c']) (some ['m']) none
      (Scenario.streamRun [AggInput.payload ⟨none, some ⟨none, some ⟨some [['x']]⟩⟩⟩,
        AggInput.done] StreamEnd.completed)
      (BrowserResult.success ['x'] (some ['c']) (some ['m'])) rfl).1 (by decide),
   (c9_frame (some ['c']) (some ['m']) none
      (Scenario.streamRun [AggInput.payload ⟨none, some ⟨none, some ⟨some [['x']]⟩⟩⟩,
        AggInput.done] StreamEnd.completed)
      (BrowserResult.success ['x'] (some ['c']) (some ['m'])) rfl).2 (by decide)⟩

end ChatGPT
